import Mathlib

/-!
Verification development for the encrypted-catalog client.

The JavaScript sources are shallowly embedded:

* the crypto module (`Crypto.decrypt`, `Crypto.saveSession`, `Crypto.getSession`,
  `Crypto.clearSession`) — byte sequences are `List Nat` (the bytes obtained after
  base64 decoding; base64 transport is treated as identity), strings are `String`,
  and the platform primitives PBKDF2 / AES-256-GCM (`crypto.subtle`), which are not
  part of the repository, are modelled as an ideal symbolic key-derivation and an
  ideal AEAD: sealing records the derived key and nonce inside the sealed payload
  through an injective encoding, opening succeeds exactly on a payload sealed under
  the same derived key and nonce and carrying an intact 16-byte tag, and any
  integrity failure is a single authentication error;
* the parser module (`Parser.displayTitle`, `Parser.searchText`);
* the application module (`applyFilters`, the search-index build, `unrestrictLink`
  with its cache, `logout` and the success path of `attemptLogin`).

JavaScript truthiness is made explicit: an absent value is `none`, an empty string
and the number 0 are falsy.  `sessionStorage` is an association list of key/value
pairs.  The network transport of `unrestrictLink` is an injected function from the
raw link to a response, and each outcome records how many network calls were made.
-/

deriving instance DecidableEq for Except

/-! ## Generic string helpers (JavaScript string operations) -/

/-- JavaScript `Array.prototype.join(" ")`. -/
def joinSpace : List String → String
  | [] => ""
  | [s] => s
  | s :: rest => s ++ " " ++ joinSpace rest

/-- JavaScript `String.prototype.toLowerCase`, character by character. -/
def lowerStr (s : String) : String := String.mk (s.data.map Char.toLower)

/-- JavaScript `String.prototype.trim`: strip whitespace from both ends. -/
def jsTrim (s : String) : String :=
  String.mk (((s.data.dropWhile Char.isWhitespace).reverse.dropWhile
    Char.isWhitespace).reverse)

/-- Does the character list `s` contain `q` as a contiguous subsequence?
Scans every suffix, as JavaScript `String.prototype.includes` does. -/
def containsSeq (q : List Char) : List Char → Bool
  | [] => q.isEmpty
  | c :: rest => q.isPrefixOf (c :: rest) || containsSeq q rest

/-- JavaScript `s.includes(q)` on strings. -/
def jsIncludes (s q : String) : Bool := containsSeq q.data s.data

/-- JavaScript `a || b` on strings: the first operand unless it is falsy (empty). -/
def jsOrStr (a b : String) : String := if a == "" then b else a

/-- Truthiness of an optional string: present and non-empty. -/
def strTruthy (s : String) : Option String := if s == "" then none else some s

/-- Truthiness filter of an optional string (absent and `""` are falsy). -/
def optTruthy (o : Option String) : Option String := o.bind strTruthy

/-- Truthiness of an optional JavaScript number rendered to a string:
absent and 0 are falsy, anything else prints in decimal. -/
def natTruthy (o : Option Nat) : Option String :=
  o.bind (fun n => if n == 0 then none else some (Nat.repr n))

/-- Truthiness test of an optional JavaScript number. -/
def natTruthyB (o : Option Nat) : Bool :=
  match o with
  | some n => n != 0
  | none => false

/-- JavaScript `String(n).padStart(2, "0")`. -/
def padStart2 (s : String) : String :=
  if s.length ≥ 2 then s else String.mk (List.replicate (2 - s.length) '0') ++ s

/-! ## Crypto module (src/unnamed/part_000)

`SALT_LENGTH`, `NONCE_LENGTH`, `PBKDF2_ITERATIONS` are the module constants.
The byte-level envelope layout and the slicing in `decrypt` follow the source;
the `crypto.subtle` primitives are the ideal model described in the header. -/

def SALT_LENGTH : Nat := 16

def NONCE_LENGTH : Nat := 12

def PBKDF2_ITERATIONS : Nat := 600000

/-- Modelled from the spec: the 256-bit key derived by PBKDF2-HMAC-SHA256.
The repository only calls the platform primitive, so the key is kept symbolic:
a deterministic, injective record of the inputs (passphrase, salt) together
with the fixed iteration count and hash name. -/
structure DerivedKey where
  password : String
  salt : List Nat
  iterations : Nat
  hash : String
deriving DecidableEq

/-- Modelled from the spec: `deriveKey` of the source (PBKDF2, 600000
iterations, SHA-256) as the symbolic key record. -/
def deriveKey (password : String) (salt : List Nat) : DerivedKey :=
  ⟨password, salt, PBKDF2_ITERATIONS, "SHA-256"⟩

/-- Length-prefixed encoding of a byte list, used by the ideal AEAD. -/
def encList (l : List Nat) : List Nat := l.length :: l

/-- Length-prefixed encoding of a string, used by the ideal AEAD. -/
def encStr (s : String) : List Nat := encList (s.data.map Char.toNat)

/-- Decode one length-prefixed byte list, returning it and the remainder. -/
def decList (l : List Nat) : Option (List Nat × List Nat) :=
  match l with
  | [] => none
  | n :: rest => if n ≤ rest.length then some (rest.take n, rest.drop n) else none

/-- Decode one length-prefixed string, returning it and the remainder. -/
def decStr (l : List Nat) : Option (String × List Nat) :=
  match decList l with
  | some (cs, r) => some (String.mk (cs.map Char.ofNat), r)
  | none => none

/-- Modelled from the spec: ideal AES-256-GCM sealing.  The sealed payload
records the derived key, the nonce and the plaintext through the injective
length-prefixed encoding, and ends with the 16-byte authentication tag. -/
def gcmSeal (key : DerivedKey) (nonce : List Nat) (plaintext : String) : List Nat :=
  encStr key.password ++ encList key.salt ++ encList nonce ++
    encStr plaintext ++ List.replicate 16 0

/-- Modelled from the spec: ideal AES-256-GCM opening.  Succeeds exactly on a
payload sealed under the same derived key and nonce whose tag is intact; any
other input fails the integrity check. -/
def gcmOpen (key : DerivedKey) (nonce : List Nat) (ciphertext : List Nat) :
    Option String :=
  (decStr ciphertext).bind (fun p1 =>
    (decList p1.2).bind (fun p2 =>
      (decList p2.2).bind (fun p3 =>
        (decStr p3.2).bind (fun p4 =>
          if p1.1 = key.password ∧ p2.1 = key.salt ∧ p3.1 = nonce ∧
              p4.2 = List.replicate 16 0 then
            some p4.1
          else none))))

/-- Error kinds of the decryption pipeline.  The spec names both; the source
code only ever produces the authentication failure. -/
inductive CryptoError where
  | AuthenticationFailed
  | MalformedEnvelope
deriving DecidableEq

/-- `Crypto.decrypt` of the source: slice the byte sequence into
`salt = data.slice(0, 16)`, `nonce = data.slice(16, 28)`,
`ciphertext = data.slice(28)`, derive the key from the passphrase and salt,
and perform authenticated decryption.  There is no length validation; every
failure surfaces as the single thrown error. -/
def decrypt (data : List Nat) (password : String) : Except CryptoError String :=
  let salt := data.take SALT_LENGTH
  let nonce := (data.drop SALT_LENGTH).take NONCE_LENGTH
  let ciphertext := data.drop (SALT_LENGTH + NONCE_LENGTH)
  let key := deriveKey password salt
  match gcmOpen key nonce ciphertext with
  | some plaintext => Except.ok plaintext
  | none => Except.error CryptoError.AuthenticationFailed

/-! ## Session cache (src/unnamed/part_000, lines 64-76)

`sessionStorage` is an association list; `setItem` replaces the key. -/

def Storage : Type := List (String × String)

/-- `sessionStorage.setItem`: store `v` under `k`, replacing any previous value. -/
def setItem (store : Storage) (k v : String) : Storage :=
  (k, v) :: store.filter (fun p => p.1 != k)

/-- `sessionStorage.getItem`: the stored value, or absent. -/
def getItem (store : Storage) (k : String) : Option String :=
  List.lookup k store

/-- `sessionStorage.removeItem`. -/
def removeItem (store : Storage) (k : String) : Storage :=
  store.filter (fun p => p.1 != k)

/-- `Crypto.saveSession`: store the passphrase under the single slot. -/
def saveSession (store : Storage) (password : String) : Storage :=
  setItem store "rd_session" password

/-- `Crypto.getSession`. -/
def getSession (store : Storage) : Option String :=
  getItem store "rd_session"

/-- `Crypto.clearSession`. -/
def clearSession (store : Storage) : Storage :=
  removeItem store "rd_session"

/-! ## Catalog data model (decrypted payload, consumed by parser.js/app.js)

Fields used only for rendering (poster, backdrop, rating) are omitted; no
claim mentions them. -/

structure Tmdb where
  title : Option String := none
  overview : Option String := none
  genres : Option (List String) := none
  year : Option Nat := none
deriving DecidableEq

structure Episode where
  filename : String := ""
  friendly_name : Option String := none
  season : Option Nat := none
  episode : Option Nat := none
  size : Option Nat := none
deriving DecidableEq

structure Item where
  type : String := ""
  title : String := ""
  filename : String := ""
  year : Option Nat := none
  size : Option Nat := none
  added : Option String := none
  tmdb : Option Tmdb := none
  season : Option Nat := none
  episode : Option Nat := none
  is_pack : Bool := false
  episodes : Option (List Episode) := none
  raw_links : Option (List String) := none
deriving DecidableEq

structure Catalog where
  updated : Option String := none
  rd_key : Option String := none
  items : List Item := []
deriving DecidableEq

/-! ## Parser module (src/docs/js/parser.js) -/

/-- `Parser.displayTitle`: prefer the TMDB title, fall back to the raw title,
then the filename; append the year in parentheses when either year is truthy
(preferring the TMDB year); append the episode or season suffix for TV items
with a season. -/
def displayTitle (item : Item) : String :=
  let title := jsOrStr ((item.tmdb.bind Tmdb.title).getD "")
    (jsOrStr item.title item.filename)
  let parts := [title]
  let parts :=
    if natTruthyB item.year || natTruthyB (item.tmdb.bind Tmdb.year) then
      parts ++ ["(" ++
        Nat.repr (if natTruthyB (item.tmdb.bind Tmdb.year) then
          (item.tmdb.bind Tmdb.year).getD 0 else item.year.getD 0) ++ ")"]
    else parts
  let parts :=
    if item.type == "tv" && item.season.isSome then
      if item.episode.isSome then
        parts ++ ["S" ++ padStart2 (Nat.repr (item.season.getD 0)) ++
          "E" ++ padStart2 (Nat.repr (item.episode.getD 0))]
      else
        parts ++ ["Season " ++ Nat.repr (item.season.getD 0)]
    else parts
  joinSpace parts

/-- The two searchable parts contributed by one episode entry in
`Parser.searchText`. -/
def episodeParts (ep : Episode) : List (Option String) :=
  [strTruthy ep.filename, optTruthy ep.friendly_name]

/-- The episode-derived searchable parts: empty when the `episodes` field is
absent, otherwise every episode's filename and friendly name. -/
def episodesParts (o : Option (List Episode)) : List (Option String) :=
  match o with
  | some eps => eps.flatMap episodeParts
  | none => []

/-- The full part list of `Parser.searchText`: the base fields, plus —
whenever the `episodes` field is present — the episode parts. -/
def searchTextParts (item : Item) : List (Option String) :=
  [ strTruthy item.title,
    strTruthy item.filename,
    optTruthy (item.tmdb.bind Tmdb.title),
    optTruthy (item.tmdb.bind Tmdb.overview),
    optTruthy ((item.tmdb.bind Tmdb.genres).map joinSpace),
    natTruthy item.year,
    natTruthy (item.tmdb.bind Tmdb.year) ] ++
  episodesParts item.episodes

/-- `Parser.searchText`: keep the truthy parts, join with single spaces and
lowercase. -/
def searchText (item : Item) : String :=
  lowerStr (joinSpace ((searchTextParts item).filterMap id))

/-! ## Application module (src/docs/js/app.js) -/

/-- The search-index build of `attemptLogin` (line 101):
`searchIndex = library.items.map((item) => Parser.searchText(item))`. -/
def buildIndex (catalog : Catalog) : List String :=
  catalog.items.map searchText

/-- `applyFilters` (lines 145-159): lowercase and trim the query, then keep an
item unless the type filter excludes it, and — when a query is present — unless
its index entry lacks the query as a substring.  Original order is preserved. -/
def applyFilters (items : List Item) (index : List String)
    (typeFilter queryText : String) : List Item :=
  let query := jsTrim (lowerStr queryText)
  (items.enum.filter (fun p =>
    if typeFilter != "all" && p.2.type != typeFilter then false
    else if query != "" then jsIncludes (index.getD p.1 "") query
    else true)).map Prod.snd

/-- Resolution-time error kinds (spec §7); the source throws with
corresponding messages. -/
inductive ResolveError where
  | MissingCredential
  | ProviderError (status : Nat) (body : String)
  | MalformedProviderResponse
deriving DecidableEq

/-- The injected network transport of `unrestrictLink`: a successful response
carries the optional `download` field of the JSON body, a failure carries the
status code and body text. -/
inductive NetResponse where
  | ok (download : Option String)
  | err (status : Nat) (body : String)

/-- Outcome of one `unrestrictLink` call: the result, the cache after the
call, and the number of network calls made. -/
structure ResolveOutcome where
  result : Except ResolveError String
  cache : List (String × String)
  netCalls : Nat
deriving DecidableEq

/-- The cache-miss path of `unrestrictLink`: fail fast when the credential is
falsy, otherwise issue exactly one network call, and on a well-formed success
store the mapping before returning it. -/
def unrestrictFetch (cache : List (String × String)) (rdKey : Option String)
    (net : String → NetResponse) (rawLink : String) : ResolveOutcome :=
  if (match rdKey with | some k => k != "" | none => false) then
    match net rawLink with
    | NetResponse.err status body =>
      ⟨Except.error (ResolveError.ProviderError status body), cache, 1⟩
    | NetResponse.ok download =>
      match download with
      | some url =>
        if url == "" then
          ⟨Except.error ResolveError.MalformedProviderResponse, cache, 1⟩
        else ⟨Except.ok url, (rawLink, url) :: cache, 1⟩
      | none => ⟨Except.error ResolveError.MalformedProviderResponse, cache, 1⟩
  else ⟨Except.error ResolveError.MissingCredential, cache, 0⟩

/-- `unrestrictLink` (lines 354-380): return a truthy cached value
immediately, otherwise run the fetch path. -/
def unrestrictLink (cache : List (String × String)) (rdKey : Option String)
    (net : String → NetResponse) (rawLink : String) : ResolveOutcome :=
  match List.lookup rawLink cache with
  | some url =>
    if url != "" then ⟨Except.ok url, cache, 0⟩
    else unrestrictFetch cache rdKey net rawLink
  | none => unrestrictFetch cache rdKey net rawLink

/-- The mutable application state of app.js: the decrypted library, the
injected resolution credential, the derived search index, the current filtered
results, the link-resolution cache and the session storage. -/
structure AppState where
  library : Option Catalog := none
  rdKey : Option String := none
  searchIndex : List String := []
  filteredItems : List Item := []
  unrestrictCache : List (String × String) := []
  session : Storage := []

/-- `logout` (lines 127-137): clear the session slot, the library, the
credential, the search index and the filtered results.  The resolution cache
is not touched. -/
def logout (s : AppState) : AppState :=
  { s with
    session := clearSession s.session,
    library := none,
    rdKey := none,
    searchIndex := [],
    filteredItems := [] }

/-- The state effect of the success path of `attemptLogin` (lines 95-102):
install the decrypted catalog, extract `rd_key || null`, save the session,
rebuild the search index, and reset the filtered results to all items. -/
def loginSuccess (s : AppState) (password : String) (catalog : Catalog) :
    AppState :=
  { s with
    library := some catalog,
    rdKey := (match catalog.rd_key with
      | some k => if k == "" then none else some k
      | none => none),
    session := saveSession s.session password,
    searchIndex := catalog.items.map searchText,
    filteredItems := catalog.items }

/-! ## Specification-side definitions

Each follows the wording of the corresponding spec sentence and is compared
with the definition translated from the source. -/

/-- A year field rendered for the spec-side index entry: an absent year, and
a year of 0 (falsy, like an absent one), contribute the empty field. -/
def specYearField (o : Option Nat) : String :=
  match o with
  | some n => if n == 0 then "" else Nat.repr n
  | none => ""

/-- The episode fields of the spec-side index entry: every contained
episode's filename and friendly name. -/
def specEpisodesFields (o : Option (List Episode)) : List String :=
  match o with
  | some eps => eps.flatMap (fun ep => [ep.filename, ep.friendly_name.getD ""])
  | none => []

/-- The base fields of the spec-side index entry: title, filename, enriched
title, overview, genre list, year and enriched year. -/
def specBaseFields (item : Item) : List String :=
  [ item.title,
    item.filename,
    (item.tmdb.bind Tmdb.title).getD "",
    (item.tmdb.bind Tmdb.overview).getD "",
    ((item.tmdb.bind Tmdb.genres).map joinSpace).getD "",
    specYearField item.year,
    specYearField (item.tmdb.bind Tmdb.year) ]

/-- The search-index entry exactly as claim C6 words it: the base fields
and, for pack items (`is_pack`), every contained episode's filename and
friendly name, joined with single spaces, dropping empty fields,
lowercased. -/
def searchEntryClaim (item : Item) : String :=
  let fields := specBaseFields item ++
    (if item.is_pack then specEpisodesFields item.episodes else [])
  lowerStr (joinSpace (fields.filter (fun s => !(s == ""))))

/-- The search-index entry as amended: episode filenames and friendly names
are included for every item whose `episodes` field is present, not only for
pack items.  Otherwise identical to the claimed formula. -/
def searchEntrySpec (item : Item) : String :=
  let fields := specBaseFields item ++ specEpisodesFields item.episodes
  lowerStr (joinSpace (fields.filter (fun s => !(s == ""))))

/-- The first non-empty string of the list, or the final fallback. -/
def firstNonEmpty (l : List String) (fallback : String) : String :=
  match l.find? (fun s => !(s == "")) with
  | some s => s
  | none => fallback

/-- A present, non-zero year. -/
def jsNonzero (o : Option Nat) : Option Nat :=
  o.bind (fun n => if n == 0 then none else some n)

/-- The display title as the spec words it: prefer the enriched title over the
raw title over the filename; append the enriched year or raw year in
parentheses when present; for TV items append a zero-padded
S(season)E(episode) suffix, or a Season suffix when the episode is absent. -/
def displayTitleSpec (item : Item) : String :=
  let title := firstNonEmpty [(item.tmdb.bind Tmdb.title).getD "", item.title]
    item.filename
  let yearShown := (jsNonzero (item.tmdb.bind Tmdb.year)).orElse
    (fun _ => jsNonzero item.year)
  let parts := [title] ++
    (match yearShown with
      | some y => ["(" ++ Nat.repr y ++ ")"]
      | none => []) ++
    (if item.type == "tv" then
      match item.season, item.episode with
      | some s, some e =>
        ["S" ++ padStart2 (Nat.repr s) ++ "E" ++ padStart2 (Nat.repr e)]
      | some s, none => ["Season " ++ Nat.repr s]
      | none, _ => []
    else [])
  joinSpace parts

/-- The filter/query engine as claim C5 words it: keep an item if and only if
the type filter is "all" or matches the item's type, and the trimmed
lowercased query is empty or contained in the item's index entry. -/
def applyFiltersSpec (items : List Item) (index : List String)
    (typeFilter queryText : String) : List Item :=
  let needle := jsTrim (lowerStr queryText)
  (items.enum.filter (fun p =>
    (typeFilter == "all" || p.2.type == typeFilter) &&
    (needle == "" || jsIncludes (index.getD p.1 "") needle))).map Prod.snd

/-! ## Helper lemmas: the ideal AEAD -/

theorem decList_enc (l t : List Nat) : decList (encList l ++ t) = some (l, t) := by
  simp only [decList, encList, List.cons_append]
  rw [if_pos (by simp)]
  rw [List.take_left, List.drop_left]

theorem mk_map_toNat_ofNat (s : String) :
    String.mk ((s.data.map Char.toNat).map Char.ofNat) = s := by
  rw [List.map_map]
  have h : s.data.map (Char.ofNat ∘ Char.toNat) = s.data.map id := by
    apply List.map_congr_left
    intro c _
    exact Char.ofNat_toNat c
  rw [h, List.map_id]

theorem decStr_enc (s : String) (t : List Nat) : decStr (encStr s ++ t) = some (s, t) := by
  simp only [decStr, encStr, decList_enc]
  rw [mk_map_toNat_ofNat]

theorem gcmOpen_gcmSeal (key openKey : DerivedKey) (nonce nonceUsed : List Nat)
    (plaintext : String) :
    gcmOpen openKey nonce (gcmSeal key nonceUsed plaintext) =
      if key.password = openKey.password ∧ key.salt = openKey.salt ∧
          nonceUsed = nonce then some plaintext else none := by
  simp only [gcmOpen, gcmSeal, List.append_assoc, decStr_enc, decList_enc,
    Option.some_bind, and_true]

theorem decList_rest_length (l : List Nat) (x r : List Nat)
    (h : decList l = some (x, r)) : r.length ≤ l.length := by
  match l with
  | [] => simp [decList] at h
  | n :: rest =>
    simp only [decList] at h
    split at h
    · cases h
      simp only [List.length_cons, List.length_drop]
      omega
    · cases h

theorem decStr_rest_length (l : List Nat) (s : String) (r : List Nat)
    (h : decStr l = some (s, r)) : r.length ≤ l.length := by
  simp only [decStr] at h
  cases hd : decList l with
  | none => rw [hd] at h; cases h
  | some pr =>
    rw [hd] at h
    cases h
    exact decList_rest_length l pr.1 pr.2 hd

theorem gcmOpen_some_length (key : DerivedKey) (nonce ciphertext : List Nat)
    (pt : String) (h : gcmOpen key nonce ciphertext = some pt) :
    16 ≤ ciphertext.length := by
  simp only [gcmOpen, Option.bind_eq_some] at h
  obtain ⟨p1, h1, p2, h2, p3, h3, p4, h4, hif⟩ := h
  have l1 := decStr_rest_length ciphertext p1.1 p1.2 (by rw [h1])
  have l2 := decList_rest_length p1.2 p2.1 p2.2 (by rw [h2])
  have l3 := decList_rest_length p2.2 p3.1 p3.2 (by rw [h3])
  have l4 := decStr_rest_length p3.2 p4.1 p4.2 (by rw [h4])
  split at hif
  · next hc =>
    have h16 : p4.2.length = 16 := by rw [hc.2.2.2]; simp
    omega
  · cases hif

theorem gcmOpen_short (key : DerivedKey) (nonce ciphertext : List Nat)
    (h : ciphertext.length < 16) : gcmOpen key nonce ciphertext = none := by
  cases hg : gcmOpen key nonce ciphertext with
  | none => rfl
  | some pt =>
    have := gcmOpen_some_length key nonce ciphertext pt hg
    omega

/-! ## Claim C1 -/

/-- C1: for every well-formed envelope (16-byte salt, 12-byte nonce, payload
sealed under passphrase `p`) and every passphrase other than `p`, `decrypt`
fails with the authentication failure and never returns a plaintext value. -/
theorem decrypt_wrong_passphrase (salt nonce : List Nat)
    (plaintext p p' : String) (hsalt : salt.length = 16)
    (hnonce : nonce.length = 12) (hne : p' ≠ p) :
    decrypt (salt ++ nonce ++ gcmSeal (deriveKey p salt) nonce plaintext) p' =
      Except.error CryptoError.AuthenticationFailed := by
  have hs : SALT_LENGTH = salt.length := by rw [hsalt]; rfl
  have hn : NONCE_LENGTH = nonce.length := by rw [hnonce]; rfl
  have e1 : List.take SALT_LENGTH
      (salt ++ nonce ++ gcmSeal (deriveKey p salt) nonce plaintext) = salt := by
    rw [hs, List.append_assoc, List.take_left]
  have e2 : List.take NONCE_LENGTH (List.drop SALT_LENGTH
      (salt ++ nonce ++ gcmSeal (deriveKey p salt) nonce plaintext)) = nonce := by
    rw [hs, List.append_assoc, List.drop_left, hn, List.take_left]
  have e3 : List.drop (SALT_LENGTH + NONCE_LENGTH)
      (salt ++ nonce ++ gcmSeal (deriveKey p salt) nonce plaintext) =
      gcmSeal (deriveKey p salt) nonce plaintext := by
    have hlen : SALT_LENGTH + NONCE_LENGTH = (salt ++ nonce).length := by
      rw [List.length_append, hsalt, hnonce]
      decide
    rw [hlen, List.drop_left]
  simp only [decrypt, e1, e2, e3, gcmOpen_gcmSeal]
  rw [if_neg]
  intro hc
  exact hne hc.1.symm

/-- Witness for C1 at a concrete envelope and passphrase pair. -/
theorem decrypt_wrong_passphrase_witness :
    decrypt (List.replicate 16 0 ++ List.replicate 12 1 ++
        gcmSeal (deriveKey "alpha" (List.replicate 16 0))
          (List.replicate 12 1) "secret") "beta" =
      Except.error CryptoError.AuthenticationFailed :=
  decrypt_wrong_passphrase (List.replicate 16 0) (List.replicate 12 1)
    "secret" "alpha" "beta" (by decide) (by decide) (by decide)

/-! ## Claim C2 -/

/-- C2, counterexample: on the empty input (shorter than 44 bytes) `decrypt`
does not fail with the distinct `MalformedEnvelope` error the claim names; it
fails with the same authentication failure as a wrong passphrase. -/
theorem decrypt_short_not_malformed :
    ([] : List Nat).length < 44 ∧
    decrypt [] "pw" ≠ Except.error CryptoError.MalformedEnvelope ∧
    decrypt [] "pw" = Except.error CryptoError.AuthenticationFailed := by
  refine ⟨by decide, by decide, by decide⟩

/-- C2 as amended: `decrypt` fails on every input shorter than 44 bytes,
including the empty one, for every passphrase — but with the single
authentication-failure error, since the source performs no length validation
and has no separate malformed-envelope error kind. -/
theorem decrypt_short_fails (data : List Nat) (password : String)
    (h : data.length < 44) :
    decrypt data password = Except.error CryptoError.AuthenticationFailed := by
  have h28 : SALT_LENGTH + NONCE_LENGTH = 28 := rfl
  have hlen : (data.drop (SALT_LENGTH + NONCE_LENGTH)).length < 16 := by
    rw [List.length_drop, h28]
    omega
  simp only [decrypt, gcmOpen_short _ _ _ hlen]

/-- Witness for the amended C2 at a concrete short input. -/
theorem decrypt_short_fails_witness :
    ([0, 1, 2] : List Nat).length < 44 ∧
    decrypt [0, 1, 2] "pw" = Except.error CryptoError.AuthenticationFailed :=
  ⟨by decide, decrypt_short_fails [0, 1, 2] "pw" (by decide)⟩

/-! ## Claim C8 -/

theorem lookup_filter_ne (k : String) (l : List (String × String)) :
    List.lookup k (l.filter (fun p => p.1 != k)) = none := by
  induction l with
  | nil => rfl
  | cons a t ih =>
    rw [List.filter_cons]
    by_cases ha : a.1 = k
    · simp only [ha, bne_self_eq_false]
      exact ih
    · have hb : (a.1 != k) = true := by simp [bne, ha]
      rw [if_pos hb, List.lookup_cons]
      have hk : (k == a.1) = false := by
        simp [beq_eq_false_iff_ne]
        exact fun he => ha he.symm
      rw [hk]
      exact ih

/-- C8: saving a passphrase and reading it back returns exactly that
passphrase whatever was stored before (save overwrites unconditionally);
reading after a clear returns the explicit absent value; and clearing twice
leaves the store exactly as clearing once does. -/
theorem session_save_get_clear (store : Storage) (password : String) :
    getSession (saveSession store password) = some password ∧
    getSession (clearSession store) = none ∧
    clearSession (clearSession store) = clearSession store := by
  refine ⟨?_, ?_, ?_⟩
  · simp [getSession, saveSession, setItem, getItem, List.lookup_cons]
  · exact lookup_filter_ne "rd_session" store
  · simp [clearSession, removeItem, List.filter_filter]

/-! ## Helper lemmas: link resolution -/

theorem unrestrictFetch_cases (cache : List (String × String))
    (rdKey : Option String) (net : String → NetResponse) (rawLink : String) :
    (∃ url, (url == "") = false ∧
      unrestrictFetch cache rdKey net rawLink =
        ⟨Except.ok url, (rawLink, url) :: cache, 1⟩) ∨
    unrestrictFetch cache rdKey net rawLink =
      ⟨Except.error ResolveError.MissingCredential, cache, 0⟩ ∨
    (∃ s b, unrestrictFetch cache rdKey net rawLink =
      ⟨Except.error (ResolveError.ProviderError s b), cache, 1⟩) ∨
    unrestrictFetch cache rdKey net rawLink =
      ⟨Except.error ResolveError.MalformedProviderResponse, cache, 1⟩ := by
  unfold unrestrictFetch
  split
  · cases hn : net rawLink with
    | err s b => right; right; left; exact ⟨s, b, rfl⟩
    | ok download =>
      cases download with
      | none => right; right; right; rfl
      | some u =>
        by_cases hu : u = ""
        · subst hu
          right; right; right; simp
        · left
          refine ⟨u, ?_, by simp [hu]⟩
          simp [beq_eq_false_iff_ne, hu]
  · right; left; rfl

theorem unrestrictLink_cases (cache : List (String × String))
    (rdKey : Option String) (net : String → NetResponse) (rawLink : String) :
    (∃ url, (url == "") = false ∧ List.lookup rawLink cache = some url ∧
      unrestrictLink cache rdKey net rawLink = ⟨Except.ok url, cache, 0⟩) ∨
    (∃ url, (url == "") = false ∧
      unrestrictLink cache rdKey net rawLink =
        ⟨Except.ok url, (rawLink, url) :: cache, 1⟩) ∨
    unrestrictLink cache rdKey net rawLink =
      ⟨Except.error ResolveError.MissingCredential, cache, 0⟩ ∨
    (∃ s b, unrestrictLink cache rdKey net rawLink =
      ⟨Except.error (ResolveError.ProviderError s b), cache, 1⟩) ∨
    unrestrictLink cache rdKey net rawLink =
      ⟨Except.error ResolveError.MalformedProviderResponse, cache, 1⟩ := by
  cases hl : List.lookup rawLink cache with
  | none =>
    have hr : unrestrictLink cache rdKey net rawLink =
        unrestrictFetch cache rdKey net rawLink := by
      unfold unrestrictLink
      rw [hl]
    rw [hr]
    rcases unrestrictFetch_cases cache rdKey net rawLink with h | h | h | h
    · right; left; exact h
    · right; right; left; exact h
    · right; right; right; left; exact h
    · right; right; right; right; exact h
  | some u =>
    by_cases hu : u = ""
    · subst hu
      have hr : unrestrictLink cache rdKey net rawLink =
          unrestrictFetch cache rdKey net rawLink := by
        unfold unrestrictLink
        rw [hl]
        simp
      rw [hr]
      rcases unrestrictFetch_cases cache rdKey net rawLink with h | h | h | h
      · right; left; exact h
      · right; right; left; exact h
      · right; right; right; left; exact h
      · right; right; right; right; exact h
    · have hr : unrestrictLink cache rdKey net rawLink =
          ⟨Except.ok u, cache, 0⟩ := by
        unfold unrestrictLink
        rw [hl]
        simp [bne, hu]
      left
      refine ⟨u, ?_, rfl, hr⟩
      simp [beq_eq_false_iff_ne, hu]

theorem unrestrictLink_hit (cache : List (String × String))
    (rdKey : Option String) (net : String → NetResponse) (rawLink url : String)
    (hl : List.lookup rawLink cache = some url) (hu : (url == "") = false) :
    unrestrictLink cache rdKey net rawLink = ⟨Except.ok url, cache, 0⟩ := by
  unfold unrestrictLink
  rw [hl]
  simp [bne, hu]

/-! ## Claim C3 -/

/-- C3: a successful resolution stores the mapping before returning, and every
subsequent call for the same raw link returns the cached stream URL with zero
network calls, whatever credential and transport it is given; a first
successful resolution of an uncached link makes exactly one network call; a
failed resolution stores nothing, so a retry performs the very same call, and
a provider failure did make its one network call. -/
theorem unrestrictLink_memoizes (cache : List (String × String))
    (rdKey : Option String) (net : String → NetResponse) (rawLink url : String) :
    ((unrestrictLink cache rdKey net rawLink).result = Except.ok url →
      List.lookup rawLink (unrestrictLink cache rdKey net rawLink).cache =
        some url ∧
      ∀ (rdKey' : Option String) (net' : String → NetResponse),
        unrestrictLink (unrestrictLink cache rdKey net rawLink).cache rdKey'
            net' rawLink =
          ⟨Except.ok url, (unrestrictLink cache rdKey net rawLink).cache, 0⟩) ∧
    (List.lookup rawLink cache = none →
      (unrestrictLink cache rdKey net rawLink).result = Except.ok url →
      (unrestrictLink cache rdKey net rawLink).netCalls = 1) ∧
    (∀ e, (unrestrictLink cache rdKey net rawLink).result = Except.error e →
      (unrestrictLink cache rdKey net rawLink).cache = cache ∧
      unrestrictLink ((unrestrictLink cache rdKey net rawLink).cache) rdKey
          net rawLink =
        unrestrictLink cache rdKey net rawLink) ∧
    (∀ s b, (unrestrictLink cache rdKey net rawLink).result =
        Except.error (ResolveError.ProviderError s b) →
      (unrestrictLink cache rdKey net rawLink).netCalls = 1) := by
  rcases unrestrictLink_cases cache rdKey net rawLink with
    ⟨u, hu, hl, hr⟩ | ⟨u, hu, hr⟩ | hr | ⟨s, b, hr⟩ | hr
  · rw [hr]
    refine ⟨?_, ?_, ?_, ?_⟩
    · intro h
      obtain rfl : u = url := by simpa using h
      exact ⟨hl, fun rdKey' net' =>
        unrestrictLink_hit cache rdKey' net' rawLink u hl hu⟩
    · intro hnone h
      rw [hnone] at hl
      cases hl
    · intro e h
      simp at h
    · intro s b h
      simp at h
  · rw [hr]
    have hl2 : List.lookup rawLink ((rawLink, u) :: cache) = some u := by
      simp [List.lookup_cons]
    refine ⟨?_, ?_, ?_, ?_⟩
    · intro h
      obtain rfl : u = url := by simpa using h
      exact ⟨hl2, fun rdKey' net' =>
        unrestrictLink_hit ((rawLink, u) :: cache) rdKey' net' rawLink u hl2 hu⟩
    · intro hnone h
      rfl
    · intro e h
      simp at h
    · intro s b h
      simp at h
  · rw [hr]
    refine ⟨?_, ?_, ?_, ?_⟩
    · intro h
      simp at h
    · intro hnone h
      simp at h
    · intro e h
      exact ⟨rfl, hr⟩
    · intro s b h
      simp at h
  · rw [hr]
    refine ⟨?_, ?_, ?_, ?_⟩
    · intro h
      simp at h
    · intro hnone h
      simp at h
    · intro e h
      exact ⟨rfl, hr⟩
    · intro s' b' h
      rfl
  · rw [hr]
    refine ⟨?_, ?_, ?_, ?_⟩
    · intro h
      simp at h
    · intro hnone h
      simp at h
    · intro e h
      exact ⟨rfl, hr⟩
    · intro s b h
      simp at h

/-- Witness for C3: a fresh cache, a succeeding transport, then a second call
with no credential and a failing transport still returns the cached URL with
zero network calls; and a provider failure leaves the cache empty after its
one network call. -/
theorem unrestrictLink_memoizes_witness :
    unrestrictLink ((unrestrictLink [] (some "key")
        (fun _ => NetResponse.ok (some "su")) "L").cache) none
        (fun _ => NetResponse.err 500 "down") "L" =
      ⟨Except.ok "su", (unrestrictLink [] (some "key")
        (fun _ => NetResponse.ok (some "su")) "L").cache, 0⟩ ∧
    (unrestrictLink [] (some "key") (fun _ => NetResponse.err 500 "down")
        "L").cache = [] ∧
    (unrestrictLink [] (some "key") (fun _ => NetResponse.err 500 "down")
        "L").netCalls = 1 := by
  refine ⟨?_, ?_, ?_⟩
  · exact ((unrestrictLink_memoizes [] (some "key")
      (fun _ => NetResponse.ok (some "su")) "L" "su").1 (by decide)).2 none
      (fun _ => NetResponse.err 500 "down")
  · exact ((unrestrictLink_memoizes [] (some "key")
      (fun _ => NetResponse.err 500 "down") "L" "su").2.2.1
      (ResolveError.ProviderError 500 "down") (by decide)).1
  · exact (unrestrictLink_memoizes [] (some "key")
      (fun _ => NetResponse.err 500 "down") "L" "su").2.2.2 500 "down" (by decide)

/-! ## Claim C4 -/

/-- C4: for every raw link not in the cache, resolving with an absent
credential fails with the missing-credential error, leaves the cache
unchanged and makes zero network calls. -/
theorem unrestrictLink_no_credential (cache : List (String × String))
    (net : String → NetResponse) (rawLink : String)
    (h : List.lookup rawLink cache = none) :
    unrestrictLink cache none net rawLink =
      ⟨Except.error ResolveError.MissingCredential, cache, 0⟩ := by
  unfold unrestrictLink
  rw [h]
  rfl

/-- Witness for C4 on the empty cache. -/
theorem unrestrictLink_no_credential_witness :
    unrestrictLink [] none (fun _ => NetResponse.ok (some "su")) "L" =
      ⟨Except.error ResolveError.MissingCredential, [], 0⟩ :=
  unrestrictLink_no_credential [] (fun _ => NetResponse.ok (some "su")) "L" rfl

/-! ## Claim C10 -/

/-- C10: logout clears the session slot, the library, the injected resolution
credential, the search index and the filtered results, but leaves the
link-resolution cache untouched: any mapping resolved before logout is still
served from the cache, with zero network calls, after a subsequent login. -/
theorem logout_preserves_unrestrict_cache (s : AppState) :
    getSession (logout s).session = none ∧
    (logout s).library = none ∧
    (logout s).rdKey = none ∧
    (logout s).searchIndex = [] ∧
    (logout s).filteredItems = [] ∧
    (logout s).unrestrictCache = s.unrestrictCache ∧
    ∀ (catalog : Catalog) (password link url : String) (rdKey : Option String)
      (net : String → NetResponse),
      List.lookup link s.unrestrictCache = some url → (url == "") = false →
      (loginSuccess (logout s) password catalog).unrestrictCache =
        s.unrestrictCache ∧
      unrestrictLink (loginSuccess (logout s) password catalog).unrestrictCache
          rdKey net link =
        ⟨Except.ok url, s.unrestrictCache, 0⟩ := by
  refine ⟨?_, rfl, rfl, rfl, rfl, rfl, ?_⟩
  · exact lookup_filter_ne "rd_session" s.session
  · intro catalog password link url rdKey net hl hu
    exact ⟨rfl, unrestrictLink_hit s.unrestrictCache rdKey net link url hl hu⟩

/-- Witness for C10 at a concrete state with one resolved mapping. -/
theorem logout_preserves_unrestrict_cache_witness :
    unrestrictLink (loginSuccess (logout
        { library := some {}, rdKey := some "k", searchIndex := ["x"],
          filteredItems := [{}], unrestrictCache := [("L", "su")],
          session := [("rd_session", "pw")] }) "pw2" {}).unrestrictCache
        none (fun _ => NetResponse.err 1 "") "L" =
      ⟨Except.ok "su", [("L", "su")], 0⟩ := by
  have h := (logout_preserves_unrestrict_cache
    { library := some {}, rdKey := some "k", searchIndex := ["x"],
      filteredItems := [{}], unrestrictCache := [("L", "su")],
      session := [("rd_session", "pw")] }).2.2.2.2.2.2
  exact (h {} "pw2" "L" "su" none (fun _ => NetResponse.err 1 "")
    (by decide) (by decide)).2

/-! ## Helper lemmas: filtering over an enumerated list -/

theorem filter_enumFrom_map_snd {α : Type} (f : α → Bool) :
    ∀ (l : List α) (n : Nat),
      ((List.enumFrom n l).filter (fun p => f p.2)).map Prod.snd = l.filter f := by
  intro l
  induction l with
  | nil => intro n; rfl
  | cons a t ih =>
    intro n
    simp only [List.enumFrom_cons, List.filter_cons]
    cases hf : f a with
    | true => simp [hf, ih]
    | false => simp [hf, ih]

theorem filter_enum_map_snd {α : Type} (f : α → Bool) (l : List α) :
    ((l.enum).filter (fun p => f p.2)).map Prod.snd = l.filter f :=
  filter_enumFrom_map_snd f l 0

/-! ## Claim C5 -/

/-- C5: `applyFilters` returns exactly the items satisfying the claimed
predicate — (type filter is "all" or matches the item type) and (trimmed
lowercased query is empty or contained in the index entry) — in original
catalog order; with filter "all" and an empty query it returns all items
unchanged, and with filter "tv" and an empty query it returns exactly the
order-preserving subsequence of items of type "tv". -/
theorem applyFilters_characterization (items : List Item) (index : List String)
    (typeFilter queryText : String) :
    applyFilters items index typeFilter queryText =
      applyFiltersSpec items index typeFilter queryText ∧
    applyFilters items index "all" "" = items ∧
    applyFilters items index "tv" "" =
      items.filter (fun it => it.type == "tv") := by
  have htrim : jsTrim (lowerStr "") = "" := rfl
  refine ⟨?_, ?_, ?_⟩
  · simp only [applyFilters, applyFiltersSpec]
    congr 1
    apply List.filter_congr
    intro p _
    cases ha : typeFilter == "all" <;>
      cases hb : p.2.type == typeFilter <;>
        cases hc : jsTrim (lowerStr queryText) == "" <;>
          simp [bne, ha, hb, hc]
  · simp only [applyFilters, htrim]
    have hp : (items.enum.filter (fun p =>
        if ("all" != "all" && p.2.type != "all") = true then false
        else if ("" != "") = true then jsIncludes (index.getD p.1 "") ""
        else true)) = items.enum := by
      rw [List.filter_eq_self]
      intro p _
      simp
    rw [hp, List.enum_map_snd]
  · simp only [applyFilters, htrim]
    rw [← filter_enum_map_snd (fun it => it.type == "tv") items]
    congr 1
    apply List.filter_congr
    intro p _
    cases hb : p.2.type == "tv" <;> simp [bne, hb]

/-! ## Helper lemmas: display-title composition -/

theorem list_append_ite (c : Prop) [Decidable c] (l : List String) (x : String) :
    (if c then l ++ [x] else l) = l ++ (if c then [x] else []) := by
  split <;> simp

theorem list_append_ite2 (c d : Prop) [Decidable c] [Decidable d]
    (l : List String) (x y : String) :
    (if c then (if d then l ++ [x] else l ++ [y]) else l) =
      l ++ (if c then (if d then [x] else [y]) else []) := by
  split
  · split <;> simp
  · simp

theorem jsOrStr_firstNonEmpty (a b c : String) :
    jsOrStr a (jsOrStr b c) = firstNonEmpty [a, b] c := by
  cases ha : a == "" <;> cases hb : b == "" <;>
    simp [jsOrStr, firstNonEmpty, List.find?, ha, hb]

theorem year_segment_eq (rawY tmdbY : Option Nat) :
    (if natTruthyB rawY || natTruthyB tmdbY then
      ["(" ++ Nat.repr (if natTruthyB tmdbY then tmdbY.getD 0
        else rawY.getD 0) ++ ")"]
    else []) =
    (match (jsNonzero tmdbY).orElse (fun _ => jsNonzero rawY) with
      | some y => ["(" ++ Nat.repr y ++ ")"]
      | none => []) := by
  cases tmdbY with
  | none =>
    cases rawY with
    | none => rfl
    | some m =>
      by_cases hm : m = 0 <;>
        simp [natTruthyB, jsNonzero, Option.orElse, hm]
  | some k =>
    by_cases hk : k = 0
    · cases rawY with
      | none => simp [natTruthyB, jsNonzero, Option.orElse, hk]
      | some m =>
        by_cases hm : m = 0 <;>
          simp [natTruthyB, jsNonzero, Option.orElse, hk, hm]
    · cases rawY with
      | none => simp [natTruthyB, jsNonzero, Option.orElse, hk]
      | some m =>
        by_cases hm : m = 0 <;>
          simp [natTruthyB, jsNonzero, Option.orElse, hk, hm]

theorem tv_segment_eq (ty : String) (se ep : Option Nat) :
    (if ty == "tv" && se.isSome then
      (if ep.isSome then
        ["S" ++ padStart2 (Nat.repr (se.getD 0)) ++
          "E" ++ padStart2 (Nat.repr (ep.getD 0))]
      else ["Season " ++ Nat.repr (se.getD 0)])
    else []) =
    (if ty == "tv" then
      (match se, ep with
        | some s, some e =>
          ["S" ++ padStart2 (Nat.repr s) ++ "E" ++ padStart2 (Nat.repr e)]
        | some s, none => ["Season " ++ Nat.repr s]
        | none, _ => [])
    else []) := by
  cases hty : ty == "tv" <;> cases se <;> cases ep <;> simp [hty]

/-! ## Claim C7 -/

/-- C7: the display title prefers the enriched title over the raw title over
the filename, appends the enriched year or raw year in parentheses when
present, and for TV items with a season appends the zero-padded
S(season)E(episode) suffix, or the Season suffix when the episode is absent;
in particular the TV item titled B with season 1 and episode 2 is rendered
"B S01E02". -/
theorem displayTitle_composition :
    (∀ item : Item, displayTitle item = displayTitleSpec item) ∧
    displayTitle { type := "tv", title := "B", season := some 1,
                   episode := some 2 } = "B S01E02" := by
  constructor
  · intro item
    simp only [displayTitle, displayTitleSpec, list_append_ite, list_append_ite2]
    rw [jsOrStr_firstNonEmpty, year_segment_eq, tv_segment_eq]
  · decide

/-! ## Helper lemmas: decimal rendering is never empty -/

theorem toDigitsCore_length_ge (b : Nat) :
    ∀ (fuel n : Nat) (ds : List Char),
      ds.length ≤ (Nat.toDigitsCore b fuel n ds).length := by
  intro fuel
  induction fuel with
  | zero => intro n ds; exact Nat.le_refl _
  | succ f ih =>
    intro n ds
    simp only [Nat.toDigitsCore]
    split
    · simp
    · calc ds.length ≤ (Nat.digitChar (n % b) :: ds).length := by simp
        _ ≤ _ := ih (n / b) (Nat.digitChar (n % b) :: ds)

theorem repr_ne_empty (n : Nat) : Nat.repr n ≠ "" := by
  intro h
  have hd : Nat.toDigits 10 n = [] := by
    have h2 := congrArg String.data h
    simpa [Nat.repr, List.asString] using h2
  have h1 : 1 ≤ (Nat.toDigitsCore 10 (n + 1) n []).length := by
    simp only [Nat.toDigitsCore]
    split
    · simp
    · have h3 := toDigitsCore_length_ge 10 n (n / 10) [Nat.digitChar (n % 10)]
      simpa using h3
  have hd2 : Nat.toDigitsCore 10 (n + 1) n [] = [] := hd
  rw [hd2] at h1
  simp at h1

/-! ## Helper lemmas: truthy parts against spec fields -/

theorem filterMap_filter_step_opt (o : Option String)
    (lo : List (Option String)) (ls : List String)
    (h : lo.filterMap id = ls.filter (fun s => !(s == ""))) :
    ((optTruthy o) :: lo).filterMap id =
      ((o.getD "") :: ls).filter (fun s => !(s == "")) := by
  cases o with
  | none => simpa [optTruthy, List.filterMap_cons, List.filter_cons] using h
  | some s =>
    by_cases hs : s = ""
    · subst hs
      simpa [optTruthy, strTruthy, List.filterMap_cons, List.filter_cons] using h
    · simp [optTruthy, strTruthy, hs, List.filterMap_cons, List.filter_cons, h]

theorem filterMap_filter_step_str (s : String)
    (lo : List (Option String)) (ls : List String)
    (h : lo.filterMap id = ls.filter (fun x => !(x == ""))) :
    ((strTruthy s) :: lo).filterMap id =
      (s :: ls).filter (fun x => !(x == "")) :=
  filterMap_filter_step_opt (some s) lo ls h

theorem filterMap_filter_step_nat (o : Option Nat)
    (lo : List (Option String)) (ls : List String)
    (h : lo.filterMap id = ls.filter (fun s => !(s == ""))) :
    ((natTruthy o) :: lo).filterMap id =
      ((specYearField o) :: ls).filter (fun s => !(s == "")) := by
  cases o with
  | none => simpa [natTruthy, specYearField, List.filterMap_cons,
      List.filter_cons] using h
  | some n =>
    by_cases hn : n = 0
    · subst hn
      simpa [natTruthy, specYearField, List.filterMap_cons,
        List.filter_cons] using h
    · have hrepr : (Nat.repr n == "") = false := by
        simp [beq_eq_false_iff_ne]
        exact repr_ne_empty n
      simp [natTruthy, specYearField, hn, List.filterMap_cons,
        List.filter_cons, hrepr, h]

theorem filterMap_filter_eps (eps : List Episode) :
    (eps.flatMap episodeParts).filterMap id =
      (eps.flatMap (fun ep => [ep.filename, ep.friendly_name.getD ""])).filter
        (fun s => !(s == "")) := by
  induction eps with
  | nil => rfl
  | cons ep t ih =>
    simp only [List.flatMap_cons, episodeParts, List.cons_append,
      List.nil_append]
    exact filterMap_filter_step_str ep.filename _ _
      (filterMap_filter_step_opt ep.friendly_name _ _ ih)

theorem searchText_eq_spec (item : Item) :
    searchText item = searchEntrySpec item := by
  unfold searchText searchEntrySpec
  congr 1
  congr 1
  cases heps : item.episodes with
  | none =>
    simp only [searchTextParts, specBaseFields, episodesParts,
      specEpisodesFields, heps, List.cons_append, List.nil_append,
      List.append_nil]
    exact filterMap_filter_step_str item.title _ _
      (filterMap_filter_step_str item.filename _ _
        (filterMap_filter_step_opt (item.tmdb.bind Tmdb.title) _ _
          (filterMap_filter_step_opt (item.tmdb.bind Tmdb.overview) _ _
            (filterMap_filter_step_opt
              ((item.tmdb.bind Tmdb.genres).map joinSpace) _ _
              (filterMap_filter_step_nat item.year _ _
                (filterMap_filter_step_nat (item.tmdb.bind Tmdb.year) _ _
                  rfl))))))
  | some eps =>
    simp only [searchTextParts, specBaseFields, episodesParts,
      specEpisodesFields, heps, List.cons_append, List.nil_append]
    exact filterMap_filter_step_str item.title _ _
      (filterMap_filter_step_str item.filename _ _
        (filterMap_filter_step_opt (item.tmdb.bind Tmdb.title) _ _
          (filterMap_filter_step_opt (item.tmdb.bind Tmdb.overview) _ _
            (filterMap_filter_step_opt
              ((item.tmdb.bind Tmdb.genres).map joinSpace) _ _
              (filterMap_filter_step_nat item.year _ _
                (filterMap_filter_step_nat (item.tmdb.bind Tmdb.year) _ _
                  (filterMap_filter_eps eps)))))))

/-! ## Claim C6 -/

/-- C6, counterexample: for a non-pack item that carries episodes, the built
index entry contains the episode filename while the claimed formula
(episodes indexed only for pack items) omits it, so the index does not match
the claimed per-item formula. -/
theorem buildIndex_claim_counterexample :
    buildIndex { items := [{ title := "t", filename := "f",
                             episodes := some [{ filename := "epf" }] }] } ≠
      List.map searchEntryClaim [{ title := "t", filename := "f",
                                   episodes := some [{ filename := "epf" }] }] := by
  decide

/-- C6 as amended: `buildIndex` is deterministic (it is a pure function of
the catalog), returns one entry per item order-aligned with the items, and
each entry is the lowercased space-joined concatenation of the base fields
and — for every item whose episodes field is present, not only for pack
items — each contained episode's filename and friendly name, empty fields
dropped. -/
theorem buildIndex_entries (catalog : Catalog) :
    buildIndex catalog = catalog.items.map searchEntrySpec ∧
    (buildIndex catalog).length = catalog.items.length := by
  constructor
  · exact List.map_congr_left (fun item _ => searchText_eq_spec item)
  · simp [buildIndex]

/-! ## Helper lemmas: substring containment -/

theorem isPrefixOf_self_append (q t : List Char) :
    q.isPrefixOf (q ++ t) = true := by
  induction q with
  | nil => simp [List.isPrefixOf]
  | cons a as ih => simp [List.isPrefixOf, ih]

theorem isPrefixOf_refl (q : List Char) : q.isPrefixOf q = true := by
  induction q with
  | nil => simp [List.isPrefixOf]
  | cons a as ih => simp [List.isPrefixOf, ih]

theorem containsSeq_nil_query (l : List Char) : containsSeq [] l = true := by
  cases l with
  | nil => rfl
  | cons c rest => simp [containsSeq, List.isPrefixOf]

theorem containsSeq_of_isPrefixOf (q l : List Char)
    (h : q.isPrefixOf l = true) : containsSeq q l = true := by
  cases l with
  | nil =>
    cases q with
    | nil => rfl
    | cons a as => simp [List.isPrefixOf] at h
  | cons c rest => simp [containsSeq, h]

theorem containsSeq_append_left (q t a : List Char)
    (h : containsSeq q t = true) : containsSeq q (a ++ t) = true := by
  induction a with
  | nil => simpa using h
  | cons c r ih => simp [containsSeq, List.cons_append, ih]

theorem isPrefixOf_map (f : Char → Char) :
    ∀ (q l : List Char), q.isPrefixOf l = true →
      (q.map f).isPrefixOf (l.map f) = true := by
  intro q
  induction q with
  | nil => intro l h; simp [List.isPrefixOf]
  | cons a as ih =>
    intro l h
    cases l with
    | nil => simp [List.isPrefixOf] at h
    | cons b bs =>
      simp only [List.isPrefixOf, Bool.and_eq_true] at h
      obtain ⟨hab, hrest⟩ := h
      have hae : a = b := eq_of_beq hab
      subst hae
      simp [List.map_cons, List.isPrefixOf, ih bs hrest]

theorem containsSeq_map (f : Char → Char) :
    ∀ (q l : List Char), containsSeq q l = true →
      containsSeq (q.map f) (l.map f) = true := by
  intro q l
  induction l with
  | nil =>
    intro h
    cases q with
    | nil => rfl
    | cons a as => simp [containsSeq] at h
  | cons c rest ih =>
    intro h
    simp only [containsSeq, Bool.or_eq_true] at h
    rcases h with h | h
    · exact containsSeq_of_isPrefixOf _ _ (isPrefixOf_map f q (c :: rest) h)
    · simp [containsSeq, List.map_cons, ih h]

theorem strData_append (a b : String) : (a ++ b).data = a.data ++ b.data := rfl

theorem joinSpace_cons_cons (x y : String) (r : List String) :
    joinSpace (x :: y :: r) = x ++ " " ++ joinSpace (y :: r) := rfl

theorem containsSeq_joinSpace (s : String) :
    ∀ (l : List String), s ∈ l →
      containsSeq s.data (joinSpace l).data = true := by
  intro l
  induction l with
  | nil => intro h; cases h
  | cons x t ih =>
    intro h
    cases h with
    | head =>
      cases t with
      | nil =>
        exact containsSeq_of_isPrefixOf s.data s.data (isPrefixOf_refl s.data)
      | cons y r =>
        rw [joinSpace_cons_cons, strData_append, strData_append,
          List.append_assoc]
        exact containsSeq_of_isPrefixOf _ _ (isPrefixOf_self_append s.data _)
    | tail _ hmem =>
      cases t with
      | nil => cases hmem
      | cons y r =>
        rw [joinSpace_cons_cons, strData_append, strData_append,
          List.append_assoc]
        rw [← List.append_assoc]
        exact containsSeq_append_left s.data _ _ (ih hmem)

/-! ## Claim C9 -/

theorem jsIncludes_empty_query (s : String) :
    jsIncludes s (lowerStr "") = true := by
  unfold jsIncludes lowerStr
  exact containsSeq_nil_query _

theorem mem_searchText_includes (item : Item) (s : String)
    (hs : some s ∈ searchTextParts item) :
    jsIncludes (searchText item) (lowerStr s) = true := by
  unfold searchText jsIncludes lowerStr
  show containsSeq (s.data.map Char.toLower)
    (((joinSpace ((searchTextParts item).filterMap id)).data).map
      Char.toLower) = true
  apply containsSeq_map
  apply containsSeq_joinSpace
  exact List.mem_filterMap.mpr ⟨some s, hs, rfl⟩

/-- C9: for every item whose episodes field is present and non-empty, the
search-index entry contains every episode's lowercased filename and friendly
name as substrings, whether or not the item's pack flag is set — episode
names are indexed for any item carrying episodes, not only for packs. -/
theorem searchText_indexes_episodes (item : Item) (eps : List Episode)
    (ep : Episode) (heps : item.episodes = some eps) (hmem : ep ∈ eps) :
    jsIncludes (searchText item) (lowerStr ep.filename) = true ∧
    ∀ fn, ep.friendly_name = some fn →
      jsIncludes (searchText item) (lowerStr fn) = true := by
  have hparts : searchTextParts item =
      [ strTruthy item.title,
        strTruthy item.filename,
        optTruthy (item.tmdb.bind Tmdb.title),
        optTruthy (item.tmdb.bind Tmdb.overview),
        optTruthy ((item.tmdb.bind Tmdb.genres).map joinSpace),
        natTruthy item.year,
        natTruthy (item.tmdb.bind Tmdb.year) ] ++
      eps.flatMap episodeParts := by
    unfold searchTextParts episodesParts
    rw [heps]
  constructor
  · by_cases hf : ep.filename = ""
    · rw [hf]
      exact jsIncludes_empty_query _
    · apply mem_searchText_includes
      rw [hparts]
      apply List.mem_append_right
      apply List.mem_flatMap.mpr
      refine ⟨ep, hmem, ?_⟩
      simp [episodeParts, strTruthy, hf]
  · intro fn hfn
    by_cases hf : fn = ""
    · rw [hf]
      exact jsIncludes_empty_query _
    · apply mem_searchText_includes
      rw [hparts]
      apply List.mem_append_right
      apply List.mem_flatMap.mpr
      refine ⟨ep, hmem, ?_⟩
      simp [episodeParts, optTruthy, strTruthy, hfn, hf]

/-- Witness for C9 at a concrete non-pack item carrying one episode. -/
theorem searchText_indexes_episodes_witness :
    jsIncludes (searchText { title := "t", filename := "f", episodes := some [{ filename := "epf", friendly_name := some "fr" }] }) (lowerStr "epf") = true ∧
    jsIncludes (searchText { title := "t", filename := "f", episodes := some [{ filename := "epf", friendly_name := some "fr" }] }) (lowerStr "fr") = true := by
  have h := searchText_indexes_episodes
    { title := "t", filename := "f", episodes := some [{ filename := "epf", friendly_name := some "fr" }] }
    [{ filename := "epf", friendly_name := some "fr" }]
    { filename := "epf", friendly_name := some "fr" } rfl (by decide)
  exact ⟨h.1, h.2 "fr" rfl⟩
